import Mathlib

/-!
Verification development for the dekadal NDVI compositing pipeline
(`src/utils.py`, `src/extract.py`, `src/transform.py`,
`src/pipeline/extract.py`, `src/pipeline/transform.py`).

Python `datetime.datetime` values are modelled by the `DateTime` structure
below: a year (`Int`, so that date arithmetic is total) together with
month, day, hour, minute and second (`Nat`).  Python compares datetimes
lexicographically on these fields, which is modelled by `DateTime.ltb`
via the lexicographic comparison `listLt` on the list of remaining
fields.
-/

/-- Lexicographic strict comparison of two lists of naturals, modelling
Python's tuple/field-wise datetime comparison. -/
def listLt : List Nat → List Nat → Bool
  | [], [] => false
  | [], _ :: _ => true
  | _ :: _, [] => false
  | a :: as, b :: bs => a < b || (a = b && listLt as bs)

theorem listLt_irrefl : ∀ l : List Nat, listLt l l = false := by
  intro l
  induction l with
  | nil => rfl
  | cons a as ih => simp [listLt, ih]

theorem listLt_trans : ∀ {a b c : List Nat},
    listLt a b = true → listLt b c = true → listLt a c = true := by
  intro a
  induction a with
  | nil =>
    intro b c hab hbc
    cases b with
    | nil => exact hbc
    | cons b bs =>
      cases c with
      | nil => simp [listLt] at hbc
      | cons c cs => rfl
  | cons a as ih =>
    intro b c hab hbc
    cases b with
    | nil => simp [listLt] at hab
    | cons b bs =>
      cases c with
      | nil => simp [listLt] at hbc
      | cons c cs =>
        simp only [listLt, Bool.or_eq_true, Bool.and_eq_true, decide_eq_true_eq] at *
        rcases hab with h1 | ⟨h1, h1'⟩ <;> rcases hbc with h2 | ⟨h2, h2'⟩
        · exact Or.inl (Nat.lt_trans h1 h2)
        · exact Or.inl (h2 ▸ h1)
        · exact Or.inl (h1 ▸ h2)
        · exact Or.inr ⟨h1.trans h2, ih h1' h2'⟩

theorem listLt_asymm : ∀ {a b : List Nat}, listLt a b = true → listLt b a = false := by
  intro a b hab
  by_contra h
  have hba : listLt b a = true := by
    cases hb : listLt b a
    · exact absurd hb h
    · rfl
  have := listLt_trans hab hba
  rw [listLt_irrefl] at this
  exact Bool.false_ne_true this

theorem eq_of_listLt_false : ∀ {a b : List Nat}, a.length = b.length →
    listLt a b = false → listLt b a = false → a = b := by
  intro a
  induction a with
  | nil =>
    intro b hlen _ _
    cases b with
    | nil => rfl
    | cons b bs => simp at hlen
  | cons a as ih =>
    intro b hlen hab hba
    cases b with
    | nil => simp at hlen
    | cons b bs =>
      simp only [listLt, Bool.or_eq_false_iff, Bool.and_eq_false_iff,
        decide_eq_false_iff_not, decide_eq_true_eq] at hab hba
      have hab1 := hab.1
      have hba1 := hba.1
      have heq : a = b := Nat.le_antisymm (Nat.le_of_not_lt hba1) (Nat.le_of_not_lt hab1)
      subst heq
      have h2 : listLt as bs = false := by
        rcases hab.2 with h | h
        · exact absurd rfl h
        · exact h
      have h3 : listLt bs as = false := by
        rcases hba.2 with h | h
        · exact absurd rfl h
        · exact h
      have : as = bs := ih (by simpa using hlen) h2 h3
      rw [this]

theorem listLt_true_head : ∀ {a b : Nat} {as bs : List Nat},
    listLt (a :: as) (b :: bs) = true → a ≤ b := by
  intro a b as bs h
  simp only [listLt, Bool.or_eq_true, Bool.and_eq_true, decide_eq_true_eq] at h
  rcases h with h | ⟨h, _⟩
  · exact Nat.le_of_lt h
  · exact Nat.le_of_eq h

theorem listLt_false_head : ∀ {a b : Nat} {as bs : List Nat},
    listLt (a :: as) (b :: bs) = false → b ≤ a := by
  intro a b as bs h
  simp only [listLt, Bool.or_eq_false_iff] at h
  exact Nat.le_of_not_lt (by simpa using h.1)

/-- Model of a Python `datetime.datetime` value (microseconds and time
zones are not used by the code under verification). -/
structure DateTime where
  year : Int
  month : Nat
  day : Nat
  hour : Nat
  minute : Nat
  second : Nat
deriving DecidableEq

namespace DateTime

/-- The non-year fields, in comparison order. -/
def restFields (d : DateTime) : List Nat :=
  [d.month, d.day, d.hour, d.minute, d.second]

/-- Python's `<` on datetimes: lexicographic on (year, month, day, hour, minute, second). -/
def ltb (a b : DateTime) : Bool :=
  decide (a.year < b.year) || (decide (a.year = b.year) && listLt a.restFields b.restFields)

/-- Python's `<=` on datetimes. -/
def leb (a b : DateTime) : Bool := !(ltb b a)

theorem ltb_irrefl (a : DateTime) : ltb a a = false := by
  simp [ltb, listLt_irrefl]

theorem ltb_trans {a b c : DateTime} (hab : ltb a b = true) (hbc : ltb b c = true) :
    ltb a c = true := by
  simp only [ltb, Bool.or_eq_true, Bool.and_eq_true, decide_eq_true_eq] at *
  rcases hab with h1 | ⟨h1, h1'⟩ <;> rcases hbc with h2 | ⟨h2, h2'⟩
  · exact Or.inl (h1.trans h2)
  · exact Or.inl (h2 ▸ h1)
  · exact Or.inl (h1 ▸ h2)
  · exact Or.inr ⟨h1.trans h2, listLt_trans h1' h2'⟩

theorem ltb_asymm {a b : DateTime} (hab : ltb a b = true) : ltb b a = false := by
  by_contra h
  have hba : ltb b a = true := by
    cases hb : ltb b a
    · exact absurd hb h
    · rfl
  have := ltb_trans hab hba
  rw [ltb_irrefl] at this
  exact Bool.false_ne_true this

theorem ext_of_fields {a b : DateTime} (hy : a.year = b.year)
    (hr : a.restFields = b.restFields) : a = b := by
  cases a; cases b
  simp only [restFields, List.cons.injEq, and_true] at hr
  simp_all

theorem eq_of_ltb_false {a b : DateTime} (hab : ltb a b = false) (hba : ltb b a = false) :
    a = b := by
  simp only [ltb, Bool.or_eq_false_iff, Bool.and_eq_false_iff,
    decide_eq_false_iff_not, decide_eq_true_eq] at hab hba
  have hy : a.year = b.year := le_antisymm (le_of_not_lt hba.1) (le_of_not_lt hab.1)
  have h2 : listLt a.restFields b.restFields = false := by
    rcases hab.2 with h | h
    · exact absurd hy h
    · exact h
  have h3 : listLt b.restFields a.restFields = false := by
    rcases hba.2 with h | h
    · exact absurd hy.symm h
    · exact h
  exact ext_of_fields hy (eq_of_listLt_false (by simp [restFields]) h2 h3)

theorem leb_refl (a : DateTime) : leb a a = true := by
  simp [leb, ltb_irrefl]

theorem leb_of_ltb {a b : DateTime} (h : ltb a b = true) : leb a b = true := by
  simp [leb, ltb_asymm h]

theorem leb_trans {a b c : DateTime} (hab : leb a b = true) (hbc : leb b c = true) :
    leb a c = true := by
  simp only [leb, Bool.not_eq_true'] at *
  cases h1 : ltb a b with
  | true =>
    cases h2 : ltb b c with
    | true =>
      exact ltb_asymm (ltb_trans h1 h2)
    | false =>
      have : b = c := eq_of_ltb_false h2 hbc
      exact this ▸ hab
  | false =>
    have : a = b := eq_of_ltb_false h1 hab
    exact this ▸ hbc

theorem leb_ltb_trans {a b c : DateTime} (hab : leb a b = true) (hbc : ltb b c = true) :
    ltb a c = true := by
  simp only [leb, Bool.not_eq_true'] at hab
  cases h1 : ltb a b with
  | true => exact ltb_trans h1 hbc
  | false =>
    have : a = b := eq_of_ltb_false h1 hab
    exact this ▸ hbc

theorem ltb_leb_trans {a b c : DateTime} (hab : ltb a b = true) (hbc : leb b c = true) :
    ltb a c = true := by
  simp only [leb, Bool.not_eq_true'] at hbc
  cases h2 : ltb b c with
  | true => exact ltb_trans hab h2
  | false =>
    have : b = c := eq_of_ltb_false h2 hbc
    exact this ▸ hab

/-- The month index of a datetime on the infinite month axis. -/
def monthIdx (d : DateTime) : Int := d.year * 12 + d.month

theorem monthIdx_le_of_leb {a b : DateTime} (h : leb a b = true)
    (ham : a.month ≤ 12) (hbm : 1 ≤ b.month) : monthIdx a ≤ monthIdx b := by
  simp only [leb, Bool.not_eq_true', ltb, Bool.or_eq_false_iff, Bool.and_eq_false_iff,
    decide_eq_false_iff_not, decide_eq_true_eq] at h
  have hy : a.year ≤ b.year := le_of_not_lt h.1
  rcases h.2 with hne | hll
  · have : a.year < b.year := lt_of_le_of_ne hy (fun he => hne he.symm)
    simp only [monthIdx]
    omega
  · rcases eq_or_lt_of_le hy with he | hlt
    · have : a.month ≤ b.month := by
        have hl' : listLt (b.month :: [b.day, b.hour, b.minute, b.second])
            (a.month :: [a.day, a.hour, a.minute, a.second]) = false := by
          simpa [restFields] using hll
        exact listLt_false_head hl'
      simp only [monthIdx]
      omega
    · simp only [monthIdx]
      omega

theorem ltb_of_monthIdx_lt {a b : DateTime}
    (ham : 1 ≤ a.month) (ham' : a.month ≤ 12) (hbm : 1 ≤ b.month) (hbm' : b.month ≤ 12)
    (h : monthIdx a < monthIdx b) : ltb a b = true := by
  simp only [monthIdx] at h
  have hcase : a.year < b.year ∨ (a.year = b.year ∧ a.month < b.month) := by omega
  simp only [ltb, Bool.or_eq_true, Bool.and_eq_true, decide_eq_true_eq]
  rcases hcase with h1 | ⟨h1, h2⟩
  · exact Or.inl h1
  · refine Or.inr ⟨h1, ?_⟩
    simp [restFields, listLt, h2]

theorem ltb_of_same_ym_day_lt {a b : DateTime} (hy : a.year = b.year)
    (hm : a.month = b.month) (hd : a.day < b.day) : ltb a b = true := by
  simp [ltb, hy, restFields, listLt, hm, hd]

end DateTime

/-- Gregorian leap-year rule, as used by Python's `calendar`/`datetime`. -/
def isLeap (y : Int) : Bool :=
  (y % 4 = 0 && y % 100 ≠ 0) || y % 400 = 0

/-- Number of days of month `m` of year `y` (Python `calendar.monthrange`). -/
def daysInMonth (y : Int) (m : Nat) : Nat :=
  if m = 2 then (if isLeap y then 29 else 28)
  else if m = 4 ∨ m = 6 ∨ m = 9 ∨ m = 11 then 30
  else 31

theorem daysInMonth_ge (y : Int) (m : Nat) : 28 ≤ daysInMonth y m := by
  unfold daysInMonth
  split
  · split <;> omega
  · split <;> omega

theorem daysInMonth_le (y : Int) (m : Nat) : daysInMonth y m ≤ 31 := by
  unfold daysInMonth
  split
  · split <;> omega
  · split <;> omega

/-- Validity of a `DateTime`, i.e. the invariant of Python's `datetime.datetime`
(year range 1..9999, month 1..12, day within the month, sane time fields). -/
def DateTime.Valid (d : DateTime) : Prop :=
  1 ≤ d.year ∧ d.year ≤ 9999 ∧ 1 ≤ d.month ∧ d.month ≤ 12 ∧
  1 ≤ d.day ∧ d.day ≤ daysInMonth d.year d.month ∧
  d.hour < 24 ∧ d.minute < 60 ∧ d.second < 60

instance (d : DateTime) : Decidable (DateTime.Valid d) := by
  unfold DateTime.Valid
  infer_instance

namespace DateTime

/-- The calendar day before `a`, keeping the time-of-day fields.  Together
with `subDays` this models Python's `a - datetime.timedelta(days=k)`. -/
def prevDay (a : DateTime) : DateTime :=
  if 1 < a.day then { a with day := a.day - 1 }
  else if 1 < a.month then { a with month := a.month - 1, day := daysInMonth a.year (a.month - 1) }
  else { a with year := a.year - 1, month := 12, day := 31 }

/-- The calendar day after `a`, keeping the time-of-day fields.  Together
with `addDays` this models Python's `a + datetime.timedelta(days=k)`. -/
def nextDay (a : DateTime) : DateTime :=
  if a.day < daysInMonth a.year a.month then { a with day := a.day + 1 }
  else if a.month < 12 then { a with month := a.month + 1, day := 1 }
  else { a with year := a.year + 1, month := 1, day := 1 }

/-- `a - datetime.timedelta(days=k)`. -/
def subDays (a : DateTime) : Nat → DateTime
  | 0 => a
  | k + 1 => subDays a.prevDay k

/-- `a + datetime.timedelta(days=k)`. -/
def addDays (a : DateTime) : Nat → DateTime
  | 0 => a
  | k + 1 => addDays a.nextDay k

theorem prevDay_ltb (a : DateTime) : ltb a.prevDay a = true := by
  unfold prevDay
  split
  · exact ltb_of_same_ym_day_lt rfl rfl (by simp; omega)
  · split
    · have h' : a.month - 1 < a.month := by omega
      simp [ltb, restFields, listLt, h']
    · have h' : a.year - 1 < a.year := by omega
      simp [ltb, h']

theorem nextDay_ltb (a : DateTime) : ltb a a.nextDay = true := by
  unfold nextDay
  split
  · exact ltb_of_same_ym_day_lt rfl rfl (by simp)
  · split
    · have h' : a.month < a.month + 1 := by omega
      simp [ltb, restFields, listLt, h']
    · have h' : a.year < a.year + 1 := by omega
      simp [ltb, h']

theorem prevDay_month_bounds {a : DateTime} (h1 : 1 ≤ a.month) (h2 : a.month ≤ 12) :
    1 ≤ a.prevDay.month ∧ a.prevDay.month ≤ 12 := by
  unfold prevDay
  split
  · exact ⟨h1, h2⟩
  · split
    · exact ⟨by show 1 ≤ _; simp; omega, by show _ ≤ 12; simp; omega⟩
    · exact ⟨by norm_num, by norm_num⟩

theorem nextDay_month_bounds {a : DateTime} (h1 : 1 ≤ a.month) (h2 : a.month ≤ 12) :
    1 ≤ a.nextDay.month ∧ a.nextDay.month ≤ 12 := by
  unfold nextDay
  split
  · exact ⟨h1, h2⟩
  · split
    · exact ⟨by show 1 ≤ _; simp, by show _ ≤ 12; simp; omega⟩
    · exact ⟨by norm_num, by norm_num⟩

theorem subDays_leb (a : DateTime) (k : Nat) : leb (a.subDays k) a = true := by
  induction k generalizing a with
  | zero => exact leb_refl a
  | succ k ih =>
    exact leb_trans (ih a.prevDay) (leb_of_ltb (prevDay_ltb a))

theorem addDays_leb (a : DateTime) (k : Nat) : leb a (a.addDays k) = true := by
  induction k generalizing a with
  | zero => exact leb_refl a
  | succ k ih =>
    exact leb_trans (leb_of_ltb (nextDay_ltb a)) (ih a.nextDay)

theorem subDays_month_bounds {a : DateTime} (k : Nat) (h1 : 1 ≤ a.month) (h2 : a.month ≤ 12) :
    1 ≤ (a.subDays k).month ∧ (a.subDays k).month ≤ 12 := by
  induction k generalizing a with
  | zero => exact ⟨h1, h2⟩
  | succ k ih =>
    have h := prevDay_month_bounds h1 h2
    exact ih h.1 h.2

theorem addDays_month_bounds {a : DateTime} (k : Nat) (h1 : 1 ≤ a.month) (h2 : a.month ≤ 12) :
    1 ≤ (a.addDays k).month ∧ (a.addDays k).month ≤ 12 := by
  induction k generalizing a with
  | zero => exact ⟨h1, h2⟩
  | succ k ih =>
    have h := nextDay_month_bounds h1 h2
    exact ih h.1 h.2

end DateTime

/-! ## DateMath: `src/src/utils.py` -/

/-- `has_dates_around_target` from `src/src/utils.py` (lines 102-115):
true iff the list has a date strictly before and a date strictly after
the target. -/
def has_dates_around_target (dates : List DateTime) (target : DateTime) : Bool :=
  let has_smaller := dates.any (fun d => DateTime.ltb d target)
  let has_larger := dates.any (fun d => DateTime.ltb target d)
  has_smaller && has_larger

/-- The fixed dekads of each month (`src/src/utils.py` line 132). -/
def dekads : List Nat := [1, 11, 21]

/-- The body of one iteration of the month loop of `get_dekadal_targets`:
for each dekad day build `datetime(year, month, d, 0, 0, 0)` and keep it
when `d >= start_date and d <= end_date`. -/
def dekadMonthEntries (y : Int) (m : Nat) (start_date end_date : DateTime) : List DateTime :=
  (dekads.map (fun d => ⟨y, m, d, 0, 0, 0⟩)).filter
    (fun t => DateTime.leb start_date t && DateTime.leb t end_date)

/-- The `while` loop of `get_dekadal_targets` (`src/src/utils.py` lines
129-145), iterating month by month while
`(year < end.year) or (year == end.year and month <= end.month)`.
The loop advances the (year, month) pair by one month per iteration, so
it runs for exactly `end.year*12 + end.month + 1 - (start.year*12 + start.month)`
iterations; `fuel` carries that bound to make the recursion structural. -/
def dekadal_loop (start_date end_date : DateTime) : Nat → Int → Nat → List DateTime
  | 0, _, _ => []
  | fuel + 1, y, m =>
    if y < end_date.year ∨ (y = end_date.year ∧ m ≤ end_date.month) then
      dekadMonthEntries y m start_date end_date ++
        (if m = 12 then dekadal_loop start_date end_date fuel (y + 1) 1
         else dekadal_loop start_date end_date fuel y (m + 1))
    else []

/-- `get_dekadal_targets` from `src/src/utils.py` (lines 117-147), returning
the dekadal instants themselves rather than their ISO-8601 renderings
(the rendering `f"{d.date().isoformat()}T{d.time().isoformat()}Z"` is an
injective formatting step). -/
def get_dekadal_targets (start_date end_date : DateTime) : List DateTime :=
  dekadal_loop start_date end_date
    (end_date.year * 12 + end_date.month + 1 - (start_date.year * 12 + start_date.month)).toNat
    start_date.year start_date.month

theorem mem_dekadMonthEntries {y : Int} {m : Nat} {s e x : DateTime} :
    x ∈ dekadMonthEntries y m s e ↔
      (x.year = y ∧ x.month = m ∧ (x.day = 1 ∨ x.day = 11 ∨ x.day = 21) ∧
       x.hour = 0 ∧ x.minute = 0 ∧ x.second = 0 ∧
       DateTime.leb s x = true ∧ DateTime.leb x e = true) := by
  simp only [dekadMonthEntries, List.mem_filter, List.mem_map, dekads,
    Bool.and_eq_true, List.mem_cons, List.not_mem_nil, or_false]
  constructor
  · rintro ⟨⟨d, hd, rfl⟩, hcond⟩
    refine ⟨rfl, rfl, ?_, rfl, rfl, rfl, hcond.1, hcond.2⟩
    rcases hd with h | h | h <;> simp [h]
  · rintro ⟨hy, hm, hd, hh, hmin, hsec, hsx, hxe⟩
    have hx : x = ⟨y, m, x.day, 0, 0, 0⟩ := by
      cases x
      simp_all
    refine ⟨⟨x.day, ?_, ?_⟩, hsx, hxe⟩
    · rcases hd with h | h | h <;> simp [h]
    · rw [hx]

theorem mem_dekadal_loop (s e : DateTime) (hem1 : 1 ≤ e.month) (hem2 : e.month ≤ 12) :
    ∀ (fuel : Nat) (y : Int) (m : Nat), 1 ≤ m → m ≤ 12 →
    (e.year * 12 + e.month + 1 - (y * 12 + m) : Int) ≤ (fuel : Int) →
    ∀ x : DateTime,
      (x ∈ dekadal_loop s e fuel y m ↔
        ((x.day = 1 ∨ x.day = 11 ∨ x.day = 21) ∧ x.hour = 0 ∧ x.minute = 0 ∧
         x.second = 0 ∧ DateTime.leb s x = true ∧ DateTime.leb x e = true ∧
         1 ≤ x.month ∧ x.month ≤ 12 ∧ (y * 12 + m : Int) ≤ x.monthIdx)) := by
  intro fuel
  induction fuel with
  | zero =>
    intro y m hm1 hm2 hfuel x
    simp only [dekadal_loop, List.not_mem_nil, false_iff]
    rintro ⟨_, _, _, _, _, hxe, hxm1, hxm2, hidx⟩
    have hle := DateTime.monthIdx_le_of_leb hxe hxm2 hem1
    unfold DateTime.monthIdx at hle hidx
    simp only [Nat.cast_zero] at hfuel
    omega
  | succ fuel ih =>
    intro y m hm1 hm2 hfuel x
    by_cases hg : y < e.year ∨ (y = e.year ∧ m ≤ e.month)
    · rw [show dekadal_loop s e (fuel + 1) y m =
        dekadMonthEntries y m s e ++
          (if m = 12 then dekadal_loop s e fuel (y + 1) 1
           else dekadal_loop s e fuel y (m + 1)) from by
          simp only [dekadal_loop]
          rw [if_pos hg]]
      rw [List.mem_append]
      have hrest : (x ∈ if m = 12 then dekadal_loop s e fuel (y + 1) 1
            else dekadal_loop s e fuel y (m + 1)) ↔
          ((x.day = 1 ∨ x.day = 11 ∨ x.day = 21) ∧ x.hour = 0 ∧ x.minute = 0 ∧
           x.second = 0 ∧ DateTime.leb s x = true ∧ DateTime.leb x e = true ∧
           1 ≤ x.month ∧ x.month ≤ 12 ∧ (y * 12 + m + 1 : Int) ≤ x.monthIdx) := by
        by_cases hm12 : m = 12
        · subst hm12
          rw [if_pos rfl]
          rw [ih (y + 1) 1 (by omega) (by omega) (by push_cast at hfuel ⊢; omega)]
          constructor
          · rintro ⟨h1, h2, h3, h4, h5, h6, h7, h8, h9⟩
            exact ⟨h1, h2, h3, h4, h5, h6, h7, h8, by omega⟩
          · rintro ⟨h1, h2, h3, h4, h5, h6, h7, h8, h9⟩
            exact ⟨h1, h2, h3, h4, h5, h6, h7, h8, by omega⟩
        · rw [if_neg hm12]
          rw [ih y (m + 1) (by omega) (by omega) (by push_cast at hfuel ⊢; omega)]
          constructor
          · rintro ⟨h1, h2, h3, h4, h5, h6, h7, h8, h9⟩
            exact ⟨h1, h2, h3, h4, h5, h6, h7, h8, by push_cast at h9 ⊢; omega⟩
          · rintro ⟨h1, h2, h3, h4, h5, h6, h7, h8, h9⟩
            exact ⟨h1, h2, h3, h4, h5, h6, h7, h8, by push_cast at h9 ⊢; omega⟩
      rw [hrest, mem_dekadMonthEntries]
      unfold DateTime.monthIdx
      constructor
      · rintro (⟨hy, hm, h3, h4, h5, h6, h7, h8⟩ | ⟨h1, h2, h3, h4, h5, h6, h7, h8, h9⟩)
        · exact ⟨h3, h4, h5, h6, h7, h8, by omega, by omega, by subst hy; subst hm; omega⟩
        · exact ⟨h1, h2, h3, h4, h5, h6, h7, h8, by omega⟩
      · rintro ⟨h1, h2, h3, h4, h5, h6, h7, h8, h9⟩
        by_cases hat : (x.year * 12 + x.month : Int) = y * 12 + m
        · have hy : x.year = y ∧ x.month = m := by omega
          exact Or.inl ⟨hy.1, hy.2, h1, h2, h3, h4, h5, h6⟩
        · exact Or.inr ⟨h1, h2, h3, h4, h5, h6, h7, h8, by omega⟩
    · rw [show dekadal_loop s e (fuel + 1) y m = [] from by
        simp only [dekadal_loop]
        rw [if_neg hg]]
      simp only [List.not_mem_nil, false_iff]
      rintro ⟨_, _, _, _, _, hxe, hxm1, hxm2, hidx⟩
      have hle := DateTime.monthIdx_le_of_leb hxe hxm2 hem1
      unfold DateTime.monthIdx at hle hidx
      push_neg at hg
      omega

theorem pairwise_dekadMonthEntries {y : Int} {m : Nat} {s e : DateTime} :
    List.Pairwise (fun a b => DateTime.ltb a b = true) (dekadMonthEntries y m s e) := by
  apply List.Pairwise.filter
  simp only [dekads, List.map_cons, List.map_nil]
  refine List.Pairwise.cons ?_ (List.Pairwise.cons ?_ (List.Pairwise.cons ?_ List.Pairwise.nil))
  · intro b hb
    simp only [List.mem_cons, List.not_mem_nil, or_false] at hb
    rcases hb with rfl | rfl
    · exact DateTime.ltb_of_same_ym_day_lt rfl rfl (by norm_num)
    · exact DateTime.ltb_of_same_ym_day_lt rfl rfl (by norm_num)
  · intro b hb
    simp only [List.mem_cons, List.not_mem_nil, or_false] at hb
    rcases hb with rfl
    exact DateTime.ltb_of_same_ym_day_lt rfl rfl (by norm_num)
  · intro b hb
    exact absurd hb (List.not_mem_nil b)

theorem pairwise_dekadal_loop (s e : DateTime) (hem1 : 1 ≤ e.month) (hem2 : e.month ≤ 12) :
    ∀ (fuel : Nat) (y : Int) (m : Nat), 1 ≤ m → m ≤ 12 →
    (e.year * 12 + e.month + 1 - (y * 12 + m) : Int) ≤ (fuel : Int) →
    List.Pairwise (fun a b => DateTime.ltb a b = true) (dekadal_loop s e fuel y m) := by
  intro fuel
  induction fuel with
  | zero =>
    intro y m _ _ _
    simp [dekadal_loop]
  | succ fuel ih =>
    intro y m hm1 hm2 hfuel
    by_cases hg : y < e.year ∨ (y = e.year ∧ m ≤ e.month)
    · rw [show dekadal_loop s e (fuel + 1) y m =
        dekadMonthEntries y m s e ++
          (if m = 12 then dekadal_loop s e fuel (y + 1) 1
           else dekadal_loop s e fuel y (m + 1)) from by
          simp only [dekadal_loop]
          rw [if_pos hg]]
      rw [List.pairwise_append]
      refine ⟨pairwise_dekadMonthEntries, ?_, ?_⟩
      · by_cases hm12 : m = 12
        · subst hm12
          rw [if_pos rfl]
          exact ih (y + 1) 1 (by omega) (by omega) (by push_cast at hfuel ⊢; omega)
        · rw [if_neg hm12]
          exact ih y (m + 1) (by omega) (by omega) (by push_cast at hfuel ⊢; omega)
      · intro a ha b hb
        obtain ⟨hay, ham, _⟩ := mem_dekadMonthEntries.mp ha
        have hbfacts : 1 ≤ b.month ∧ b.month ≤ 12 ∧ (y * 12 + m + 1 : Int) ≤ b.monthIdx := by
          by_cases hm12 : m = 12
          · subst hm12
            rw [if_pos rfl] at hb
            have := (mem_dekadal_loop s e hem1 hem2 fuel (y + 1) 1 (by omega) (by omega)
              (by push_cast at hfuel ⊢; omega) b).mp hb
            obtain ⟨_, _, _, _, _, _, hb1, hb2, hbidx⟩ := this
            exact ⟨hb1, hb2, by push_cast at hbidx ⊢; omega⟩
          · rw [if_neg hm12] at hb
            have := (mem_dekadal_loop s e hem1 hem2 fuel y (m + 1) (by omega) (by omega)
              (by push_cast at hfuel ⊢; omega) b).mp hb
            obtain ⟨_, _, _, _, _, _, hb1, hb2, hbidx⟩ := this
            exact ⟨hb1, hb2, by push_cast at hbidx ⊢; omega⟩
        apply DateTime.ltb_of_monthIdx_lt (by omega) (by omega) hbfacts.1 hbfacts.2.1
        unfold DateTime.monthIdx at hbfacts ⊢
        have := hbfacts.2.2
        omega
    · rw [show dekadal_loop s e (fuel + 1) y m = [] from by
        simp only [dekadal_loop]
        rw [if_neg hg]]
      exact List.Pairwise.nil

/-- C3: for every pair of datetimes `(start, end)` with `start <= end`,
`get_dekadal_targets start end` is a strictly increasing sequence whose
elements are exactly all the day-1, day-11 and day-21 instants at
00:00:00 lying within `[start, end]` inclusive — no omissions, no
duplicates (strict increase forbids them), and nothing outside the
interval. -/
theorem c3_dekadal_targets_exact (s e : DateTime) (hs : s.Valid) (he : e.Valid)
    (hse : DateTime.leb s e = true) :
    List.Pairwise (fun a b => DateTime.ltb a b = true) (get_dekadal_targets s e) ∧
    ∀ x : DateTime, (x ∈ get_dekadal_targets s e ↔
      (x.Valid ∧ (x.day = 1 ∨ x.day = 11 ∨ x.day = 21) ∧ x.hour = 0 ∧ x.minute = 0 ∧
       x.second = 0 ∧ DateTime.leb s x = true ∧ DateTime.leb x e = true)) := by
  obtain ⟨hsy1, hsy2, hsm1, hsm2, _⟩ := hs
  obtain ⟨hey1, hey2, hem1, hem2, _⟩ := he
  have hfuel : (e.year * 12 + e.month + 1 - (s.year * 12 + s.month) : Int) ≤
      ((e.year * 12 + e.month + 1 - (s.year * 12 + s.month) : Int).toNat : Int) :=
    Int.self_le_toNat _
  constructor
  · exact pairwise_dekadal_loop s e hem1 hem2 _ s.year s.month hsm1 hsm2 hfuel
  · intro x
    rw [get_dekadal_targets,
      mem_dekadal_loop s e hem1 hem2 _ s.year s.month hsm1 hsm2 hfuel x]
    constructor
    · rintro ⟨h1, h2, h3, h4, h5, h6, hxm1, hxm2, hidx⟩
      have hle := DateTime.monthIdx_le_of_leb h6 hxm2 hem1
      unfold DateTime.monthIdx at hle hidx
      refine ⟨?_, h1, h2, h3, h4, h5, h6⟩
      refine ⟨by omega, by omega, hxm1, hxm2, by rcases h1 with h | h | h <;> omega, ?_,
        by rw [h2]; norm_num, by rw [h3]; norm_num, by rw [h4]; norm_num⟩
      have := daysInMonth_ge x.year x.month
      rcases h1 with h | h | h <;> omega
    · rintro ⟨⟨hxy1, hxy2, hxm1, hxm2, _⟩, h1, h2, h3, h4, h5, h6⟩
      refine ⟨h1, h2, h3, h4, h5, h6, hxm1, hxm2, ?_⟩
      exact DateTime.monthIdx_le_of_leb h5 hsm2 hxm1

/-! ## SearchWindowResolver: `search` in `src/src/pipeline/extract.py` (lines 74-130)
and `src/src/extract.py` (lines 42-97) -/

/-- Outcome of one run of the recursive `search`: a normal return of the
catalog observations, the `IndexError` raised by `targets[0]` on an empty
target list, or exhaustion of the step budget `fuel` (the Python original
has no such budget: runs that exhaust every finite budget never
terminate). -/
inductive SearchResult where
  | ok (obs : List DateTime)
  | indexError
  | outOfFuel
deriving DecidableEq

/-- The external catalog collaborator (`SentinelHubCatalog.search` filtered
by cloud cover): maps a queried `(start, end)` interval to the timestamps
of the returned observations. -/
def Catalog : Type := DateTime × DateTime → List DateTime

/-- The recursive `search` of `src/src/pipeline/extract.py` (lines 74-130):
query the catalog over the current interval, compute the dekadal targets of
the *current* interval, check `has_dates_around_target` for the first and
last target, return the observations when both checks pass, otherwise widen
each failing edge by 10 days and recurse.  `fuel` bounds the recursion
depth so that the unbounded Python recursion becomes a total function. -/
def search : Nat → Catalog → DateTime × DateTime → SearchResult
  | 0, _, _ => .outOfFuel
  | fuel + 1, cat, (start_d, end_d) =>
    let result_times := cat (start_d, end_d)
    match get_dekadal_targets start_d end_d with
    | [] => .indexError
    | t0 :: rest =>
      let tl := rest.getLastD t0
      let valid_start := has_dates_around_target result_times t0
      let valid_end := has_dates_around_target result_times tl
      if valid_start && valid_end then .ok result_times
      else
        search fuel cat
          (if !valid_start then start_d.subDays 10 else start_d,
           if !valid_end then end_d.addDays 10 else end_d)

/-- Second definition following the words of the spec (§4.3 step 2) for
comparison with `search`: identical except that the dekadal targets
checked at every invocation, recursive ones included, are computed from
the *original requested* interval `orig` rather than from the current
interval. -/
def search_spec_model (orig : DateTime × DateTime) :
    Nat → Catalog → DateTime × DateTime → SearchResult
  | 0, _, _ => .outOfFuel
  | fuel + 1, cat, (start_d, end_d) =>
    let result_times := cat (start_d, end_d)
    match get_dekadal_targets orig.1 orig.2 with
    | [] => .indexError
    | t0 :: rest =>
      let tl := rest.getLastD t0
      let valid_start := has_dates_around_target result_times t0
      let valid_end := has_dates_around_target result_times tl
      if valid_start && valid_end then .ok result_times
      else
        search_spec_model orig fuel cat
          (if !valid_start then start_d.subDays 10 else start_d,
           if !valid_end then end_d.addDays 10 else end_d)

/-- C8: `has_dates_around_target dates target` is true iff some date in the
list is strictly less than the target and some date is strictly greater;
in particular it is false whenever all dates lie on one side of, or
exactly at, the target (equal dates count for neither side). -/
theorem c8_has_dates_around_target_iff :
    ∀ (dates : List DateTime) (target : DateTime),
    (has_dates_around_target dates target = true ↔
      ((∃ d ∈ dates, DateTime.ltb d target = true) ∧
       (∃ d ∈ dates, DateTime.ltb target d = true))) ∧
    (((∀ d ∈ dates, DateTime.ltb d target = false) ∨
      (∀ d ∈ dates, DateTime.ltb target d = false)) →
      has_dates_around_target dates target = false) := by
  intro dates target
  constructor
  · simp [has_dates_around_target, List.any_eq_true]
  · intro h
    simp only [has_dates_around_target, Bool.and_eq_false_iff, List.any_eq_false]
    rcases h with h | h
    · exact Or.inl (fun d hd => by simp [h d hd])
    · exact Or.inr (fun d hd => by simp [h d hd])

theorem c8_has_dates_around_target_iff_witness :
    (∀ d ∈ [(⟨2025, 8, 5, 0, 0, 0⟩ : DateTime)],
      DateTime.ltb ⟨2025, 8, 25, 0, 0, 0⟩ d = false) ∧
    has_dates_around_target [⟨2025, 8, 5, 0, 0, 0⟩] ⟨2025, 8, 25, 0, 0, 0⟩ = false :=
  ⟨by decide,
   (c8_has_dates_around_target_iff [⟨2025, 8, 5, 0, 0, 0⟩] ⟨2025, 8, 25, 0, 0, 0⟩).2
     (Or.inr (by decide))⟩

/-- C10: whenever the searched interval contains no dekadal instant,
`get_dekadal_targets` returns the empty list and `search` hits the
`IndexError` of `targets[0]` instead of returning observations or widening
the interval; in particular this happens for the interval
2025-08-02 .. 2025-08-09, which lies strictly between the 2nd and the
10th of one month. -/
theorem c10_empty_targets_index_error :
    (∀ (cat : Catalog) (fuel : Nat) (s e : DateTime),
      get_dekadal_targets s e = [] →
      search (fuel + 1) cat (s, e) = .indexError) ∧
    get_dekadal_targets ⟨2025, 8, 2, 0, 0, 0⟩ ⟨2025, 8, 9, 0, 0, 0⟩ = [] := by
  constructor
  · intro cat fuel s e h
    simp only [search, h]
  · decide

theorem c10_empty_targets_index_error_witness :
    get_dekadal_targets ⟨2025, 8, 2, 0, 0, 0⟩ ⟨2025, 8, 9, 0, 0, 0⟩ = [] ∧
    search 1 (fun _ => []) (⟨2025, 8, 2, 0, 0, 0⟩, ⟨2025, 8, 9, 0, 0, 0⟩) = .indexError :=
  ⟨by decide,
   c10_empty_targets_index_error.1 (fun _ => []) 0 ⟨2025, 8, 2, 0, 0, 0⟩ ⟨2025, 8, 9, 0, 0, 0⟩
     (by decide)⟩

theorem search_empty_catalog_out_of_fuel :
    ∀ (fuel : Nat) (s e : DateTime),
    DateTime.leb s ⟨2025, 8, 1, 0, 0, 0⟩ = true →
    DateTime.leb ⟨2025, 8, 31, 0, 0, 0⟩ e = true →
    1 ≤ s.month → s.month ≤ 12 → 1 ≤ e.month → e.month ≤ 12 →
    search fuel (fun _ => []) (s, e) = .outOfFuel := by
  intro fuel
  induction fuel with
  | zero =>
    intro s e _ _ _ _ _ _
    rfl
  | succ fuel ih =>
    intro s e hs he hsm1 hsm2 hem1 hem2
    have hmem : (⟨2025, 8, 1, 0, 0, 0⟩ : DateTime) ∈ get_dekadal_targets s e := by
      rw [get_dekadal_targets,
        mem_dekadal_loop s e hem1 hem2 _ s.year s.month hsm1 hsm2 (Int.self_le_toNat _)]
      refine ⟨Or.inl rfl, rfl, rfl, rfl, hs, ?_, by norm_num, by norm_num, ?_⟩
      · exact DateTime.leb_trans (by decide) he
      · have := DateTime.monthIdx_le_of_leb hs hsm2 (by norm_num)
        unfold DateTime.monthIdx at this ⊢
        exact this
    cases h : get_dekadal_targets s e with
    | nil =>
      rw [h] at hmem
      exact absurd hmem (List.not_mem_nil _)
    | cons t0 rest =>
      simp only [search, h]
      have h1 : has_dates_around_target [] t0 = false := rfl
      have h2 : has_dates_around_target [] (rest.getLastD t0) = false := rfl
      simp only [h1, h2, Bool.and_self, Bool.not_false, if_true, Bool.false_and,
        Bool.if_false_left]
      exact ih (s.subDays 10) (e.addDays 10)
        (DateTime.leb_trans (DateTime.subDays_leb s 10) hs)
        (DateTime.leb_trans he (DateTime.addDays_leb e 10))
        (DateTime.subDays_month_bounds 10 hsm1 hsm2).1
        (DateTime.subDays_month_bounds 10 hsm1 hsm2).2
        (DateTime.addDays_month_bounds 10 hem1 hem2).1
        (DateTime.addDays_month_bounds 10 hem1 hem2).2

/-- C4: there is a catalog response behaviour — the catalog that never
returns any observation at all, in particular none strictly before the
first dekadal target — under which the recursive widening of `search`
never reaches its terminal state: for every recursion budget the run
exhausts the budget, i.e. the recursion has no iteration cap and no
interval cap. -/
theorem c4_unbounded_widening :
    ∃ cat : Catalog, ∀ fuel : Nat,
      search fuel cat (⟨2025, 8, 1, 0, 0, 0⟩, ⟨2025, 8, 31, 0, 0, 0⟩) = .outOfFuel := by
  refine ⟨fun _ => [], fun fuel => ?_⟩
  exact search_empty_catalog_out_of_fuel fuel _ _ (DateTime.leb_refl _) (DateTime.leb_refl _)
    (by norm_num) (by norm_num) (by norm_num) (by norm_num)

/-- Observations of a concrete catalog used to compare `search` with
`search_spec_model`. -/
def c2_all_observations : List DateTime :=
  [⟨2025, 7, 5, 0, 0, 0⟩, ⟨2025, 7, 21, 0, 0, 0⟩, ⟨2025, 8, 5, 0, 0, 0⟩,
   ⟨2025, 8, 15, 0, 0, 0⟩, ⟨2025, 8, 25, 0, 0, 0⟩]

/-- A catalog that returns, for any queried interval, the fixed observation
set restricted to that interval. -/
def c2_catalog : Catalog := fun interval =>
  c2_all_observations.filter
    (fun d => DateTime.leb interval.1 d && DateTime.leb d interval.2)

/-- The originally requested interval 2025-08-01 .. 2025-08-31. -/
def c2_requested : DateTime × DateTime :=
  (⟨2025, 8, 1, 0, 0, 0⟩, ⟨2025, 8, 31, 0, 0, 0⟩)

/-- C2 counterexample: on a concrete catalog, `search` (the code, which
recomputes the checked dekadal targets from the current, widened interval
at every invocation) returns a different observation set than
`search_spec_model` (the claim's behaviour, which checks the first and
last targets of the original requested interval on every invocation).
After two start-edge widenings the code checks the target 2025-07-21 of
the widened interval, fails it, and widens a third time, picking up the
2025-07-05 observation; the claim's resolver keeps checking 2025-08-01
and stops earlier. -/
theorem c2_counterexample :
    search 10 c2_catalog c2_requested =
      .ok [⟨2025, 7, 5, 0, 0, 0⟩, ⟨2025, 7, 21, 0, 0, 0⟩, ⟨2025, 8, 5, 0, 0, 0⟩,
           ⟨2025, 8, 15, 0, 0, 0⟩, ⟨2025, 8, 25, 0, 0, 0⟩] ∧
    search_spec_model c2_requested 10 c2_catalog c2_requested =
      .ok [⟨2025, 7, 21, 0, 0, 0⟩, ⟨2025, 8, 5, 0, 0, 0⟩, ⟨2025, 8, 15, 0, 0, 0⟩,
           ⟨2025, 8, 25, 0, 0, 0⟩] ∧
    search 10 c2_catalog c2_requested ≠
      search_spec_model c2_requested 10 c2_catalog c2_requested :=
  ⟨by decide, by decide, by decide⟩

/-- C2 as amended: on every invocation of `search`, recursive ones
included, the first and last dekadal targets checked with
`has_dates_around_target` are computed from the *current* interval's start
and end; when both edge checks pass, the current interval's observations
are returned unchanged, and otherwise exactly the invalid edges are
widened by 10 days each before recursing. -/
theorem c2_search_step :
    ∀ (cat : Catalog) (fuel : Nat) (s e t0 : DateTime) (rest : List DateTime),
    get_dekadal_targets s e = t0 :: rest →
    ((has_dates_around_target (cat (s, e)) t0 = true ∧
      has_dates_around_target (cat (s, e)) (rest.getLastD t0) = true →
      search (fuel + 1) cat (s, e) = .ok (cat (s, e))) ∧
     (¬(has_dates_around_target (cat (s, e)) t0 = true ∧
        has_dates_around_target (cat (s, e)) (rest.getLastD t0) = true) →
      search (fuel + 1) cat (s, e) =
        search fuel cat
          (if has_dates_around_target (cat (s, e)) t0 then s else s.subDays 10,
           if has_dates_around_target (cat (s, e)) (rest.getLastD t0) then e
           else e.addDays 10))) := by
  intro cat fuel s e t0 rest h
  constructor
  · rintro ⟨h1, h2⟩
    simp only [search, h, h1, h2, Bool.and_self, if_true]
  · intro hne
    cases h1 : has_dates_around_target (cat (s, e)) t0 with
    | true =>
      cases h2 : has_dates_around_target (cat (s, e)) (rest.getLastD t0) with
      | true => exact absurd ⟨h1, h2⟩ hne
      | false =>
        simp only [search, h, h1, h2, Bool.and_false, Bool.not_true, Bool.not_false,
          if_true, if_false, Bool.false_eq_true]
    | false =>
      cases h2 : has_dates_around_target (cat (s, e)) (rest.getLastD t0) with
      | true =>
        simp only [search, h, h1, h2, Bool.false_and, Bool.not_true, Bool.not_false,
          if_true, if_false, Bool.false_eq_true]
      | false =>
        simp only [search, h, h1, h2, Bool.false_and, Bool.not_false, if_true, if_false,
          Bool.false_eq_true]

theorem c2_search_step_witness :
    get_dekadal_targets ⟨2025, 7, 2, 0, 0, 0⟩ ⟨2025, 8, 31, 0, 0, 0⟩ =
      ⟨2025, 7, 11, 0, 0, 0⟩ ::
        [⟨2025, 7, 21, 0, 0, 0⟩, ⟨2025, 8, 1, 0, 0, 0⟩, ⟨2025, 8, 11, 0, 0, 0⟩,
         ⟨2025, 8, 21, 0, 0, 0⟩] ∧
    search 1 c2_catalog (⟨2025, 7, 2, 0, 0, 0⟩, ⟨2025, 8, 31, 0, 0, 0⟩) =
      .ok (c2_catalog (⟨2025, 7, 2, 0, 0, 0⟩, ⟨2025, 8, 31, 0, 0, 0⟩)) :=
  ⟨by decide,
   (c2_search_step c2_catalog 0 ⟨2025, 7, 2, 0, 0, 0⟩ ⟨2025, 8, 31, 0, 0, 0⟩
      ⟨2025, 7, 11, 0, 0, 0⟩
      [⟨2025, 7, 21, 0, 0, 0⟩, ⟨2025, 8, 1, 0, 0, 0⟩, ⟨2025, 8, 11, 0, 0, 0⟩,
       ⟨2025, 8, 21, 0, 0, 0⟩] (by decide)).1 ⟨by decide, by decide⟩⟩

/-! ## Compositor windows: `transform` in `src/src/transform.py` (lines 55-68)
and `src/src/pipeline/transform.py` (lines 67-70) -/

/-- Default value standing for Python's `IndexError` on out-of-range list
indexing; the window theorems below constrain the index so that it is
never consulted. -/
def dt_default : DateTime := ⟨1, 1, 1, 0, 0, 0⟩

/-- The left/right observation windows built for target index `i` by the
non-pipeline `transform` (`src/src/transform.py` lines 57-68): the first
target's left window is unbounded below, the last target's right window is
unbounded above, and all other bounds are the neighbouring targets,
strictly. `ndvi_times` is the (sorted) time axis of the concatenated
NDVI observations; `.where(..., drop=True)` on the time axis is list
filtering. -/
def masked_windows_np (ndvi_times : List DateTime) (target_times : List DateTime) (i : Nat) :
    List DateTime × List DateTime :=
  let target := target_times.getD i dt_default
  if i = 0 then
    (ndvi_times.filter (fun d => DateTime.ltb d target),
     ndvi_times.filter (fun d =>
       DateTime.ltb target d && DateTime.ltb d (target_times.getD (i + 1) dt_default)))
  else if i = target_times.length - 1 then
    (ndvi_times.filter (fun d =>
       DateTime.ltb (target_times.getD (i - 1) dt_default) d && DateTime.ltb d target),
     ndvi_times.filter (fun d => DateTime.ltb target d))
  else
    (ndvi_times.filter (fun d =>
       DateTime.ltb (target_times.getD (i - 1) dt_default) d && DateTime.ltb d target),
     ndvi_times.filter (fun d =>
       DateTime.ltb target d && DateTime.ltb d (target_times.getD (i + 1) dt_default)))

/-- The left/right observation windows built for a target by the pipeline
`transform` (`src/src/pipeline/transform.py` lines 69-70): both windows are
bounded by a fixed 10-day radius around the target
(`target - np.timedelta64(10,'D')` and `target + np.timedelta64(10,'D')`),
for every target including the first and the last. -/
def masked_windows_pipe (ndvi_times : List DateTime) (target : DateTime) :
    List DateTime × List DateTime :=
  (ndvi_times.filter (fun d =>
     DateTime.ltb d target && DateTime.ltb (target.subDays 10) d),
   ndvi_times.filter (fun d =>
     DateTime.ltb target d && DateTime.ltb d (target.addDays 10)))

/-- C1 counterexample: for the target series 2024-10-21, 2024-11-01 and a
single observation at 2024-10-21 12:00, the observation lies strictly
between the previous target and the target 2024-11-01, yet the pipeline
Compositor's left window for 2024-11-01 (which is `(target - 10 days,
target)` = `(2024-10-22, 2024-11-01)` exclusive) does not contain it, so
the claimed window contents are wrong for the pipeline `transform`.  The
non-pipeline `transform` does include it. -/
theorem c1_counterexample :
    DateTime.ltb ⟨2024, 10, 21, 0, 0, 0⟩ ⟨2024, 10, 21, 12, 0, 0⟩ = true ∧
    DateTime.ltb ⟨2024, 10, 21, 12, 0, 0⟩ ⟨2024, 11, 1, 0, 0, 0⟩ = true ∧
    (⟨2024, 10, 21, 12, 0, 0⟩ : DateTime) ∈ [(⟨2024, 10, 21, 12, 0, 0⟩ : DateTime)] ∧
    (⟨2024, 10, 21, 12, 0, 0⟩ : DateTime) ∉
      (masked_windows_pipe [⟨2024, 10, 21, 12, 0, 0⟩] ⟨2024, 11, 1, 0, 0, 0⟩).1 ∧
    (⟨2024, 10, 21, 12, 0, 0⟩ : DateTime) ∈
      (masked_windows_np [⟨2024, 10, 21, 12, 0, 0⟩]
        [⟨2024, 10, 21, 0, 0, 0⟩, ⟨2024, 11, 1, 0, 0, 0⟩] 1).1 :=
  ⟨by decide, by decide, by decide, by decide, by decide⟩

/-- C1 as amended: the non-pipeline `transform` builds, for every target
series and observation set, exactly the windows the claim describes
(interior targets bounded strictly by the neighbouring targets, the first
target's left window unbounded below, the last target's right window
unbounded above); the pipeline `transform` instead bounds every window by
a fixed 10-day radius: its left window holds exactly the observations
strictly between `target - 10 days` and `target`, and its right window
exactly those strictly between `target` and `target + 10 days`, for every
target including the first and the last. -/
theorem c1_windows_characterization :
    (∀ (ndvi : List DateTime) (t0 t1 : DateTime) (rest : List DateTime) (d : DateTime),
      (d ∈ (masked_windows_np ndvi (t0 :: t1 :: rest) 0).1 ↔
        d ∈ ndvi ∧ DateTime.ltb d t0 = true) ∧
      (d ∈ (masked_windows_np ndvi (t0 :: t1 :: rest) 0).2 ↔
        d ∈ ndvi ∧ DateTime.ltb t0 d = true ∧ DateTime.ltb d t1 = true)) ∧
    (∀ (ndvi tgts : List DateTime) (i : Nat) (d : DateTime), 0 < i → i < tgts.length - 1 →
      (d ∈ (masked_windows_np ndvi tgts i).1 ↔
        d ∈ ndvi ∧ DateTime.ltb (tgts.getD (i - 1) dt_default) d = true ∧
          DateTime.ltb d (tgts.getD i dt_default) = true) ∧
      (d ∈ (masked_windows_np ndvi tgts i).2 ↔
        d ∈ ndvi ∧ DateTime.ltb (tgts.getD i dt_default) d = true ∧
          DateTime.ltb d (tgts.getD (i + 1) dt_default) = true)) ∧
    (∀ (ndvi tgts : List DateTime) (i : Nat) (d : DateTime), 0 < i → i = tgts.length - 1 →
      (d ∈ (masked_windows_np ndvi tgts i).1 ↔
        d ∈ ndvi ∧ DateTime.ltb (tgts.getD (i - 1) dt_default) d = true ∧
          DateTime.ltb d (tgts.getD i dt_default) = true) ∧
      (d ∈ (masked_windows_np ndvi tgts i).2 ↔
        d ∈ ndvi ∧ DateTime.ltb (tgts.getD i dt_default) d = true)) ∧
    (∀ (ndvi : List DateTime) (target d : DateTime),
      (d ∈ (masked_windows_pipe ndvi target).1 ↔
        d ∈ ndvi ∧ DateTime.ltb d target = true ∧
          DateTime.ltb (target.subDays 10) d = true) ∧
      (d ∈ (masked_windows_pipe ndvi target).2 ↔
        d ∈ ndvi ∧ DateTime.ltb target d = true ∧
          DateTime.ltb d (target.addDays 10) = true)) := by
  refine ⟨?_, ?_, ?_, ?_⟩
  · intro ndvi t0 t1 rest d
    simp [masked_windows_np, List.mem_filter, and_assoc]
  · intro ndvi tgts i d hi hilen
    have h0 : ¬(i = 0) := by omega
    have hlast : ¬(i = tgts.length - 1) := by omega
    simp only [masked_windows_np, if_neg h0, if_neg hlast]
    constructor
    · simp [List.mem_filter, and_assoc]
    · simp [List.mem_filter, and_assoc]
  · intro ndvi tgts i d hi hilen
    have h0 : ¬(i = 0) := by omega
    simp only [masked_windows_np, if_neg h0, if_pos hilen]
    constructor
    · simp [List.mem_filter, and_assoc]
    · simp [List.mem_filter]
  · intro ndvi target d
    constructor
    · simp [masked_windows_pipe, List.mem_filter, and_assoc]
    · simp [masked_windows_pipe, List.mem_filter, and_assoc]

theorem c1_windows_characterization_witness :
    (0 < 1 ∧
     1 < ([(⟨2024, 10, 1, 0, 0, 0⟩ : DateTime), ⟨2024, 10, 11, 0, 0, 0⟩,
           ⟨2024, 10, 21, 0, 0, 0⟩]).length - 1) ∧
    ((⟨2024, 10, 5, 0, 0, 0⟩ : DateTime) ∈
        (masked_windows_np [⟨2024, 10, 5, 0, 0, 0⟩]
          [⟨2024, 10, 1, 0, 0, 0⟩, ⟨2024, 10, 11, 0, 0, 0⟩, ⟨2024, 10, 21, 0, 0, 0⟩] 1).1 ↔
      (⟨2024, 10, 5, 0, 0, 0⟩ : DateTime) ∈ [(⟨2024, 10, 5, 0, 0, 0⟩ : DateTime)] ∧
      DateTime.ltb ⟨2024, 10, 1, 0, 0, 0⟩ ⟨2024, 10, 5, 0, 0, 0⟩ = true ∧
      DateTime.ltb ⟨2024, 10, 5, 0, 0, 0⟩ ⟨2024, 10, 11, 0, 0, 0⟩ = true) :=
  ⟨⟨by decide, by decide⟩,
   (c1_windows_characterization.2.1 [⟨2024, 10, 5, 0, 0, 0⟩]
      [⟨2024, 10, 1, 0, 0, 0⟩, ⟨2024, 10, 11, 0, 0, 0⟩, ⟨2024, 10, 21, 0, 0, 0⟩] 1
      ⟨2024, 10, 5, 0, 0, 0⟩ (by decide) (by decide)).1⟩

/-! ## Interpolation: `mvc.interp(time=target_times, method="linear")` in
`src/src/pipeline/transform.py` (line 78) and `src/src/transform.py` (line 76) -/

/-- Pointwise linear interpolation over the time axis for one pixel, the
per-pixel semantics of `DataArray.interp(..., method="linear")`: the
support points are `(time, value)` pairs in strictly increasing time
order, a missing value (NaN) is `none`, a target inside a bracketing pair
gets the linear formula (NaN poisoning arithmetic), and a target outside
the support hull gets NaN — no extrapolation. -/
def interp_linear : List (Int × Option ℚ) → Int → Option ℚ
  | p0 :: p1 :: rest, t =>
    if p0.1 ≤ t ∧ t ≤ p1.1 then
      match p0.2, p1.2 with
      | some a, some b =>
        some (a + (b - a) * ((t - p0.1 : Int) : ℚ) / ((p1.1 - p0.1 : Int) : ℚ))
      | _, _ => none
    else interp_linear (p1 :: rest) t
  | _, _ => none

theorem interp_linear_bracket :
    ∀ (pre : List (Int × Option ℚ)) (t0 t1 t : Int) (a b : ℚ)
      (post : List (Int × Option ℚ)),
    (∀ p ∈ pre, p.1 < t0) → t0 < t → t < t1 →
    interp_linear (pre ++ (t0, some a) :: (t1, some b) :: post) t =
      some (a + (b - a) * ((t - t0 : Int) : ℚ) / ((t1 - t0 : Int) : ℚ)) := by
  intro pre
  induction pre with
  | nil =>
    intro t0 t1 t a b post _ h0 h1
    simp only [List.nil_append, interp_linear]
    rw [if_pos ⟨le_of_lt h0, le_of_lt h1⟩]
  | cons p pre ih =>
    intro t0 t1 t a b post hpre h0 h1
    have hp : p.1 < t0 := hpre p (List.mem_cons_self p pre)
    cases pre with
    | nil =>
      simp only [List.cons_append, List.nil_append, interp_linear]
      rw [if_neg (by push_neg; intro _; omega)]
      rw [if_pos ⟨le_of_lt h0, le_of_lt h1⟩]
    | cons q pre' =>
      have hq : q.1 < t0 := hpre q (List.mem_cons_of_mem p (List.mem_cons_self q pre'))
      simp only [List.cons_append, interp_linear]
      rw [if_neg (by push_neg; intro _; omega)]
      have := ih t0 t1 t a b post
        (fun r hr => hpre r (List.mem_cons_of_mem p hr)) h0 h1
      simpa only [List.cons_append] using this

theorem interp_linear_all_lt :
    ∀ (pts : List (Int × Option ℚ)) (t : Int),
    (∀ p ∈ pts, p.1 < t) → interp_linear pts t = none := by
  intro pts
  induction pts with
  | nil => intro t _; rfl
  | cons p pts ih =>
    intro t h
    cases pts with
    | nil => rfl
    | cons q pts' =>
      have hq : q.1 < t := h q (List.mem_cons_of_mem p (List.mem_cons_self q pts'))
      simp only [interp_linear]
      rw [if_neg (by push_neg; intro _; omega)]
      exact ih t (fun r hr => h r (List.mem_cons_of_mem p hr))

theorem interp_linear_all_gt :
    ∀ (pts : List (Int × Option ℚ)) (t : Int),
    (∀ p ∈ pts, t < p.1) → interp_linear pts t = none := by
  intro pts
  induction pts with
  | nil => intro t _; rfl
  | cons p pts ih =>
    intro t h
    cases pts with
    | nil => rfl
    | cons q pts' =>
      have hp : t < p.1 := h p (List.mem_cons_self p (q :: pts'))
      simp only [interp_linear]
      rw [if_neg (by push_neg; intro h'; omega)]
      exact ih t (fun r hr => h r (List.mem_cons_of_mem p hr))

/-- C5: in the interpolation step, a target with two bracketing support
points (the nearest support strictly on each side) with defined values
gets the temporal-distance-weighted average of the two — with distances 4
and 6 days this is `left*0.6 + right*0.4`, the closer point weighted more
— and a target all of whose support points lie strictly on one side, with
no support point on the opposite side anywhere in the series, is left
missing (no extrapolation). -/
theorem c5_interpolation :
    (∀ (pre : List (Int × Option ℚ)) (t0 t1 t : Int) (a b : ℚ)
       (post : List (Int × Option ℚ)),
      (∀ p ∈ pre, p.1 < t0) → t0 < t → t < t1 →
      interp_linear (pre ++ (t0, some a) :: (t1, some b) :: post) t =
        some (a + (b - a) * ((t - t0 : Int) : ℚ) / ((t1 - t0 : Int) : ℚ))) ∧
    (∀ (pre : List (Int × Option ℚ)) (t0 t1 t : Int) (a b : ℚ)
       (post : List (Int × Option ℚ)),
      (∀ p ∈ pre, p.1 < t0) → t - t0 = 4 → t1 - t = 6 →
      interp_linear (pre ++ (t0, some a) :: (t1, some b) :: post) t =
        some ((3 / 5) * a + (2 / 5) * b)) ∧
    (∀ (pts : List (Int × Option ℚ)) (t : Int),
      ((∀ p ∈ pts, p.1 < t) ∨ (∀ p ∈ pts, t < p.1)) →
      interp_linear pts t = none) := by
  refine ⟨interp_linear_bracket, ?_, ?_⟩
  · intro pre t0 t1 t a b post hpre h4 h6
    rw [interp_linear_bracket pre t0 t1 t a b post hpre (by omega) (by omega)]
    congr 1
    have e4 : ((t - t0 : Int) : ℚ) = 4 := by
      rw [h4]
      norm_num
    have e10 : ((t1 - t0 : Int) : ℚ) = 10 := by
      rw [show t1 - t0 = 10 by omega]
      norm_num
    rw [e4, e10]
    ring
  · intro pts t h
    rcases h with h | h
    · exact interp_linear_all_lt pts t h
    · exact interp_linear_all_gt pts t h

theorem c5_interpolation_witness :
    (∀ p ∈ ([] : List (Int × Option ℚ)), p.1 < 0) ∧
    ((4 : Int) - 0 = 4 ∧ (10 : Int) - 4 = 6) ∧
    interp_linear [((0 : Int), some (1 : ℚ)), ((10 : Int), some (2 : ℚ))] 4 =
      some ((3 / 5) * (1 : ℚ) + (2 / 5) * (2 : ℚ)) ∧
    interp_linear [((0 : Int), some (1 : ℚ)), ((10 : Int), some (2 : ℚ))] 20 = none :=
  ⟨fun p hp => absurd hp (List.not_mem_nil p),
   ⟨by norm_num, by norm_num⟩,
   c5_interpolation.2.1 [] 0 10 4 1 2 []
     (fun p hp => absurd hp (List.not_mem_nil p)) (by norm_num) (by norm_num),
   c5_interpolation.2.2 [((0 : Int), some (1 : ℚ)), ((10 : Int), some (2 : ℚ))] 20
     (Or.inl (by decide))⟩

theorem c3_dekadal_targets_exact_witness :
    DateTime.Valid ⟨2025, 8, 1, 0, 0, 0⟩ ∧ DateTime.Valid ⟨2025, 8, 31, 0, 0, 0⟩ ∧
    DateTime.leb ⟨2025, 8, 1, 0, 0, 0⟩ ⟨2025, 8, 31, 0, 0, 0⟩ = true ∧
    (List.Pairwise (fun a b => DateTime.ltb a b = true)
        (get_dekadal_targets ⟨2025, 8, 1, 0, 0, 0⟩ ⟨2025, 8, 31, 0, 0, 0⟩) ∧
     ∀ x : DateTime,
       (x ∈ get_dekadal_targets ⟨2025, 8, 1, 0, 0, 0⟩ ⟨2025, 8, 31, 0, 0, 0⟩ ↔
         (x.Valid ∧ (x.day = 1 ∨ x.day = 11 ∨ x.day = 21) ∧ x.hour = 0 ∧ x.minute = 0 ∧
          x.second = 0 ∧ DateTime.leb ⟨2025, 8, 1, 0, 0, 0⟩ x = true ∧
          DateTime.leb x ⟨2025, 8, 31, 0, 0, 0⟩ = true))) :=
  ⟨by decide, by decide, by decide,
   c3_dekadal_targets_exact ⟨2025, 8, 1, 0, 0, 0⟩ ⟨2025, 8, 31, 0, 0, 0⟩
     (by decide) (by decide) (by decide)⟩

/-! ## GapFiller epochs: `download_CLMS` in `src/src/pipeline/extract.py`
(lines 405-414) -/

/-- Python exception kinds raised by the modelled code paths. -/
inductive PyError where
  | valueError
  | typeError
deriving DecidableEq

/-- The two CLMS NDVI BYOC collections (`CLMS_NDVI_V1`, `CLMS_NDVI_V2` in
`src/src/__init__.py`). -/
inductive ByocCollectionId where
  | CLMS_NDVI_V1
  | CLMS_NDVI_V2
deriving DecidableEq

/-- The per-target collection selection of `download_CLMS`
(`src/src/pipeline/extract.py` lines 406-414), keyed by
`target_year = int(time_target[:4])`: years `>= 2020` use V2, years in
`[2014, 2020)` use V1, anything else raises
`ValueError("CLMS NDVI data not available for year ...")` — the spec's
UnsupportedEpoch error. -/
def select_clms_collection (target_year : Int) : Except PyError ByocCollectionId :=
  if target_year ≥ 2020 then .ok .CLMS_NDVI_V2
  else if target_year ≥ 2014 ∧ target_year < 2020 then .ok .CLMS_NDVI_V1
  else .error .valueError

/-- The loop of `download_CLMS` over its `time_targets`, collecting the
selected collection per target; an unsupported year raises out of the
whole call (fatal — no automatic skip of that target). -/
def download_CLMS_collections : List Int → Except PyError (List ByocCollectionId)
  | [] => .ok []
  | y :: ys =>
    match select_clms_collection y with
    | .error e => .error e
    | .ok c =>
      match download_CLMS_collections ys with
      | .error e => .error e
      | .ok cs => .ok (c :: cs)

theorem select_clms_collection_error_eq {y : Int} {e : PyError}
    (h : select_clms_collection y = .error e) : e = .valueError := by
  unfold select_clms_collection at h
  split at h
  · exact absurd h (by simp)
  · split at h
    · exact absurd h (by simp)
    · cases h
      rfl

/-- C6: gap-fill selects the secondary product version by the gap date's
calendar year using two non-overlapping epochs — V2 for years 2020 and
later, V1 for years 2014 up to 2019 — and a year before the earliest
supported epoch, such as 2010, raises the UnsupportedEpoch `ValueError`,
which is fatal for the whole gap-fill call (no automatic skip). -/
theorem c6_clms_epochs :
    (∀ y : Int,
      (select_clms_collection y = .ok .CLMS_NDVI_V2 ↔ 2020 ≤ y) ∧
      (select_clms_collection y = .ok .CLMS_NDVI_V1 ↔ 2014 ≤ y ∧ y < 2020) ∧
      (select_clms_collection y = .error .valueError ↔ y < 2014)) ∧
    select_clms_collection 2010 = .error .valueError ∧
    (∀ years : List Int, 2010 ∈ years →
      download_CLMS_collections years = .error .valueError) := by
  refine ⟨?_, rfl, ?_⟩
  · intro y
    refine ⟨?_, ?_, ?_⟩ <;> unfold select_clms_collection <;> split_ifs with h1 h2
    · simpa using h1
    · simp
      omega
    · simp
      omega
    · simp
      omega
    · simpa using h2
    · simp
      omega
    · simp
      omega
    · simp
      omega
    · simp
      omega
  · intro years hmem
    induction years with
    | nil => exact absurd hmem (List.not_mem_nil _)
    | cons y ys ih =>
      rcases List.mem_cons.mp hmem with rfl | hmem'
      · show download_CLMS_collections (2010 :: ys) = .error .valueError
        unfold download_CLMS_collections
        rw [show select_clms_collection 2010 = .error .valueError from rfl]
      · unfold download_CLMS_collections
        cases hsel : select_clms_collection y with
        | error e => rw [select_clms_collection_error_eq hsel]
        | ok c => rw [ih hmem']

theorem c6_clms_epochs_witness :
    (2010 : Int) ∈ [(2024 : Int), 2010, 2015] ∧
    download_CLMS_collections [2024, 2010, 2015] = .error .valueError :=
  ⟨by decide, c6_clms_epochs.2.2 [2024, 2010, 2015] (by decide)⟩

/-! ## GapFiller substitution: `fill_gaps` in `src/src/pipeline/transform.py`
(lines 95-120) -/

/-- One time slice of the raster cube: per-pixel NDVI value, `none`
modelling NaN. -/
def Slice : Type := Nat → Option ℚ

/-- The unit rescale of the CLMS slice
(`clms_xarray.sel(time=gap, band=2) * factor + offset` with
`factor = 1 / 250.0`, `offset = -0.08`), applied pixel-wise with NaN
propagation. -/
def clms_rescale (v : Option ℚ) : Option ℚ :=
  match v with
  | some x => some (x * (1 / 250) + (-0.08))
  | none => none

/-- The gap-filling loop of `fill_gaps` (`src/src/pipeline/transform.py`
lines 115-118): for each gap timestamp, overwrite the composite's slice at
that timestamp in place with the rescaled CLMS slice
(`composite.loc[dict(time=gap)] = clms_data`). -/
def fill_gaps : List DateTime → (DateTime → Slice) → (DateTime → Slice) → (DateTime → Slice)
  | [], composite, _ => composite
  | gap :: gaps, composite, clms_xarray =>
    fill_gaps gaps
      (Function.update composite gap (fun px => clms_rescale (clms_xarray gap px)))
      clms_xarray

theorem fill_gaps_not_mem :
    ∀ (gaps : List DateTime) (composite clms_xarray : DateTime → Slice) (t : DateTime),
    t ∉ gaps → fill_gaps gaps composite clms_xarray t = composite t := by
  intro gaps
  induction gaps with
  | nil =>
    intro composite clms_xarray t _
    rfl
  | cons g gs ih =>
    intro composite clms_xarray t h
    have hne : t ≠ g := fun he => h (he ▸ List.mem_cons_self g gs)
    have hns : t ∉ gs := fun hmem => h (List.mem_cons_of_mem g hmem)
    show fill_gaps gs (Function.update composite g _) clms_xarray t = composite t
    rw [ih _ clms_xarray t hns, Function.update_noteq hne]

theorem fill_gaps_mem :
    ∀ (gaps : List DateTime) (composite clms_xarray : DateTime → Slice) (t : DateTime),
    t ∈ gaps → fill_gaps gaps composite clms_xarray t =
      fun px => clms_rescale (clms_xarray t px) := by
  intro gaps
  induction gaps with
  | nil =>
    intro composite clms_xarray t h
    exact absurd h (List.not_mem_nil t)
  | cons g gs ih =>
    intro composite clms_xarray t h
    by_cases hmem : t ∈ gs
    · exact ih _ clms_xarray t hmem
    · have ht : t = g := by
        rcases List.mem_cons.mp h with h' | h'
        · exact h'
        · exact absurd h' hmem
      subst ht
      show fill_gaps gs (Function.update composite t _) clms_xarray t = _
      rw [fill_gaps_not_mem gs _ clms_xarray t hmem, Function.update_same]

/-- C7: `fill_gaps` overwrites exactly the time slices whose timestamps are
in the gap list — a slice at a gap timestamp becomes the rescaled CLMS
slice for that timestamp, and every slice at a timestamp not in the gap
list is identical before and after gap filling. -/
theorem c7_fill_gaps_frame :
    ∀ (gaps : List DateTime) (composite clms_xarray : DateTime → Slice) (t : DateTime),
    (t ∉ gaps → fill_gaps gaps composite clms_xarray t = composite t) ∧
    (t ∈ gaps → fill_gaps gaps composite clms_xarray t =
      fun px => clms_rescale (clms_xarray t px)) := by
  intro gaps composite clms_xarray t
  exact ⟨fill_gaps_not_mem gaps composite clms_xarray t,
         fill_gaps_mem gaps composite clms_xarray t⟩

theorem c7_fill_gaps_frame_witness :
    ((⟨2024, 1, 1, 0, 0, 0⟩ : DateTime) ∉ [(⟨2024, 1, 11, 0, 0, 0⟩ : DateTime)] ∧
      fill_gaps [⟨2024, 1, 11, 0, 0, 0⟩] (fun _ _ => some 0) (fun _ _ => some 100)
        ⟨2024, 1, 1, 0, 0, 0⟩ =
        ((fun _ _ => some (0 : ℚ)) : DateTime → Slice) ⟨2024, 1, 1, 0, 0, 0⟩) ∧
    ((⟨2024, 1, 11, 0, 0, 0⟩ : DateTime) ∈ [(⟨2024, 1, 11, 0, 0, 0⟩ : DateTime)] ∧
      fill_gaps [⟨2024, 1, 11, 0, 0, 0⟩] (fun _ _ => some 0) (fun _ _ => some 100)
        ⟨2024, 1, 11, 0, 0, 0⟩ =
        fun px => clms_rescale
          (((fun _ _ => some (100 : ℚ)) : DateTime → Slice) ⟨2024, 1, 11, 0, 0, 0⟩ px)) :=
  ⟨⟨by decide,
    (c7_fill_gaps_frame [⟨2024, 1, 11, 0, 0, 0⟩] (fun _ _ => some 0) (fun _ _ => some 100)
       ⟨2024, 1, 1, 0, 0, 0⟩).1 (by decide)⟩,
   ⟨by decide,
    (c7_fill_gaps_frame [⟨2024, 1, 11, 0, 0, 0⟩] (fun _ _ => some 0) (fun _ _ => some 100)
       ⟨2024, 1, 11, 0, 0, 0⟩).2 (by decide)⟩⟩

/-! ## Multi-tile merge arity: `process_responses` in `src/src/extract.py`
(lines 198-233) calling `merge_tiles` from `src/src/utils.py` (line 61) -/

/-- Number of required positional parameters of `merge_tiles`
(`download_responses`, `response_type`, `bbox`; none has a default) in
`src/src/utils.py` line 61. -/
def merge_tiles_required_args : Nat := 3

/-- Number of positional arguments in the call `merge_tiles(response, bbox)`
at `src/src/extract.py` line 222. -/
def process_responses_merge_call_args : Nat := 2

/-- Python call semantics for a positional call: calling a function with
fewer positional arguments than it has required parameters raises
TypeError before the body runs. -/
def call_positional (required given : Nat) : Except PyError Unit :=
  if given < required then .error .typeError else .ok ()

/-- Control-flow skeleton of the non-pipeline `process_responses`
(`src/src/extract.py` lines 210-233): for each search result timestamp the
download responses with that timestamp are collected; when more than one
fragment exists, `merge_tiles` is called with 2 positional arguments. -/
def process_responses_np : List DateTime → List DateTime → Except PyError Unit
  | [], _ => .ok ()
  | time :: rest, response_times =>
    let response := response_times.filter (fun rt => decide (rt = time))
    if 1 < response.length then
      match call_positional merge_tiles_required_args process_responses_merge_call_args with
      | .error e => .error e
      | .ok _ => process_responses_np rest response_times
    else process_responses_np rest response_times

/-- C9: `merge_tiles` requires three positional arguments but the
non-pipeline `process_responses` passes only two, so the call raises
TypeError; hence whenever any timestamp has more than one tile fragment,
the non-pipeline extraction cannot complete — it always fails with
TypeError. -/
theorem c9_merge_tiles_arity :
    call_positional merge_tiles_required_args process_responses_merge_call_args =
      .error .typeError ∧
    ∀ (search_times response_times : List DateTime),
      (∃ time ∈ search_times,
        1 < (response_times.filter (fun rt => decide (rt = time))).length) →
      process_responses_np search_times response_times = .error .typeError := by
  refine ⟨rfl, ?_⟩
  intro search_times
  induction search_times with
  | nil =>
    intro response_times h
    obtain ⟨time, hmem, _⟩ := h
    exact absurd hmem (List.not_mem_nil time)
  | cons time rest ih =>
    intro response_times h
    by_cases hlen : 1 < (response_times.filter (fun rt => decide (rt = time))).length
    · show (if 1 < (response_times.filter (fun rt => decide (rt = time))).length then _
        else _) = _
      rw [if_pos hlen]
    · obtain ⟨time', hmem', hlen'⟩ := h
      have hmem'' : time' ∈ rest := by
        rcases List.mem_cons.mp hmem' with rfl | h'
        · exact absurd hlen' hlen
        · exact h'
      show (if 1 < (response_times.filter (fun rt => decide (rt = time))).length then _
        else _) = _
      rw [if_neg hlen]
      exact ih response_times ⟨time', hmem'', hlen'⟩

theorem c9_merge_tiles_arity_witness :
    (∃ time ∈ [(⟨2025, 8, 5, 0, 0, 0⟩ : DateTime)],
      1 < (([⟨2025, 8, 5, 0, 0, 0⟩, ⟨2025, 8, 5, 0, 0, 0⟩] : List DateTime).filter
        (fun rt => decide (rt = time))).length) ∧
    process_responses_np [⟨2025, 8, 5, 0, 0, 0⟩]
      [⟨2025, 8, 5, 0, 0, 0⟩, ⟨2025, 8, 5, 0, 0, 0⟩] = .error .typeError :=
  ⟨by decide,
   c9_merge_tiles_arity.2 [⟨2025, 8, 5, 0, 0, 0⟩]
     [⟨2025, 8, 5, 0, 0, 0⟩, ⟨2025, 8, 5, 0, 0, 0⟩] (by decide)⟩
